import Mathlib

/-!
Shallow embedding of the web-structure scraper (src/index.ts) and proofs of
the specification claims. Pure functions of the source become Lean functions;
the puppeteer browser engine is abstracted as a `Web` environment mapping a
url to an optional rendered `Page` (none models a navigation failure), and a
url parser extracting a hostname (none models "new URL(...) throws"). The
mutable visited set is threaded explicitly; each scraping function returns the
updated visited list together with its result.
-/

set_option maxHeartbeats 1000000

/-- ExtractedValue: the value stored for one field in the result's data map,
mirroring the TS type string | string[] (a bare string or an array). -/
inductive ExtractedValue where
  | scalar : String → ExtractedValue
  | seq : List String → ExtractedValue
deriving DecidableEq, Repr

/-- Selector: a field's selector entry, mirroring string | string[] in the
selectors map of ScrapingOptions. -/
inductive Selector where
  | single : String → Selector
  | multi : List String → Selector
deriving DecidableEq, Repr

/-- Embeds the normalization Array.isArray(selector) ? selector : [selector]. -/
def Selector.toList : Selector → List String
  | .single s => [s]
  | .multi ss => ss

/-- A DOM element handle. id models JS object identity; ancestors is the chain
of ids of the element's proper ancestors, as walked by the source's
parent = el.parentElement loop; text is the trimmed, whitespace-collapsed
textContent (which for a container already includes its descendants' text). -/
structure Element where
  id : Nat
  ancestors : List Nat
  text : String
deriving DecidableEq, Repr

/-- A rendered page as seen through the browser engine. queryResult sel models
page.waitForSelector(sel, ...) followed by page.querySelectorAll evaluation:
an error models a selector timeout / query rejection, ok els the matched
element list. links is the list of a.href values of the page's anchors. -/
structure Page where
  title : String
  queryResult : String → Except String (List Element)
  links : List String

/-- The external world: pages maps a url to its rendered page (none models a
navigation failure of page.goto), hostname models new URL(u).hostname (none
models the constructor throwing on an invalid url), now is the timestamp
produced by new Date().toISOString(). -/
structure Web where
  pages : String → Option Page
  hostname : String → Option String
  now : String

/-- Errors an entire page scrape can propagate. -/
inductive ScrapeErr where
  | nav : String → ScrapeErr
  | fieldFailed : String → ScrapeErr
  | maxDepthExceeded : ScrapeErr
deriving DecidableEq, Repr

/-- ScrapingResult of the source: url, title, data map in field order,
timestamp, and the optional childPages key (none = key absent). -/
inductive ScrapingResult where
  | mk : String → String → List (String × ExtractedValue) → String →
      Option (List ScrapingResult) → ScrapingResult

def ScrapingResult.url : ScrapingResult → String
  | .mk u _ _ _ _ => u

def ScrapingResult.title : ScrapingResult → String
  | .mk _ t _ _ _ => t

def ScrapingResult.data : ScrapingResult → List (String × ExtractedValue)
  | .mk _ _ d _ _ => d

def ScrapingResult.timestamp : ScrapingResult → String
  | .mk _ _ _ ts _ => ts

def ScrapingResult.childPages : ScrapingResult → Option (List ScrapingResult)
  | .mk _ _ _ _ c => c

def MAX_DEEPEST_DEPTH : Nat := 10

/-- User-facing partial options (every field optional), as in the exported
ScrapingOptions interface. -/
structure ScrapingOptions where
  maxDepth : Option Nat := none
  excludeChildPage : Option (String → Bool) := none
  selectors : Option (List (String × Selector)) := none
  withConsole : Option Bool := none
  breakWhenFailed : Option Bool := none
  retryCount : Option Nat := none
  waitForSelectorTimeout : Option Nat := none
  waitForPageLoadTimeout : Option Nat := none

/-- The merged Required options object scrapeWebPage receives. The
excludeChildPage field stays an Option because the source tests its
truthiness (options.excludeChildPage ? ... : ...) before calling it. -/
structure MergedOptions where
  maxDepth : Nat
  excludeChildPage : Option (String → Bool)
  selectors : List (String × Selector)
  withConsole : Bool
  breakWhenFailed : Bool
  retryCount : Nat
  waitForSelectorTimeout : Nat
  waitForPageLoadTimeout : Nat

/-- DefaultScrapingOptions of the source. -/
def DefaultScrapingOptions : MergedOptions where
  maxDepth := 0
  selectors :=
    [("headings", .multi ["h1", "h2", "h3", "h4", "h5"]),
     ("paragraphs", .single "p"),
     ("articles", .single "article"),
     ("spans", .single "span"),
     ("orderLists", .single "ol"),
     ("lists", .single "ul")]
  excludeChildPage := some (fun _ => false)
  withConsole := true
  breakWhenFailed := false
  retryCount := 3
  waitForSelectorTimeout := 12000
  waitForPageLoadTimeout := 12000

/-- Object.assign({}, DefaultScrapingOptions, _options): a user-supplied field
overrides the default, field by field. -/
def mergeOptions (d : MergedOptions) (u : ScrapingOptions) : MergedOptions where
  maxDepth := u.maxDepth.getD d.maxDepth
  excludeChildPage := u.excludeChildPage.orElse (fun _ => d.excludeChildPage)
  selectors := u.selectors.getD d.selectors
  withConsole := u.withConsole.getD d.withConsole
  breakWhenFailed := u.breakWhenFailed.getD d.breakWhenFailed
  retryCount := u.retryCount.getD d.retryCount
  waitForSelectorTimeout := u.waitForSelectorTimeout.getD d.waitForSelectorTimeout
  waitForPageLoadTimeout := u.waitForPageLoadTimeout.getD d.waitForPageLoadTimeout

/-- isValidUrl: new URL(urlString) succeeds. -/
def isValidUrl (env : Web) (urlString : String) : Bool :=
  (env.hostname urlString).isSome

/-- isSameDomain: both urls parse and their hostnames agree; any parse failure
is caught and yields false. -/
def isSameDomain (env : Web) (baseUrl targetUrl : String) : Bool :=
  match env.hostname baseUrl, env.hostname targetUrl with
  | some b, some t => b == t
  | _, _ => false

/-- Embeds [...new Set(xs)]: keep the first occurrence of each value,
preserving insertion order. -/
def jsSetDedup {α : Type} [DecidableEq α] (xs : List α) : List α :=
  xs.foldl (fun acc x => if x ∈ acc then acc else acc ++ [x]) []

/-- The $$eval filter of the source: drop every element having an ancestor
that is itself in the matched list els (checked by identity, here by id). -/
def hierarchyFilter (els : List Element) : List Element :=
  els.filter fun el =>
    !(el.ancestors.any fun a => els.any fun e => e.id == a)

/-- One selector's task inside Promise.allSettled: wait for the selector and
query it (both modelled by Page.queryResult), hierarchy-filter the matches,
take each survivor's trimmed text, and drop empty strings. -/
def processSelector (page : Page) (s : String) : Except String (List String) :=
  (page.queryResult s).map fun els =>
    ((hierarchyFilter els).map Element.text).filter fun t => t ≠ ""

/-- The operation handed to retry for one field: run every selector of the
field (Promise.allSettled, a rejected selector contributing []), flatten, and
deduplicate with a JS Set. Every fallible step of the source sits inside the
allSettled, so this operation itself always fulfills. -/
def extractOperation (page : Page) (sel : Selector) : List String :=
  let selectorResults := sel.toList.map (processSelector page)
  let allElements :=
    (selectorResults.map fun r =>
      match r with
      | .ok v => v
      | .error _ => ([] : List String)).flatten
  jsSetDedup allElements

/-- The retry loop body: attempt counts up, remaining counts the attempts
still allowed (the loop guard attempt < maxRetries of the source, kept
structural so the definition computes). On failure of an attempt with
attempt < maxRetries - 1, a backoff delay delay * 2 ^ attempt * (1/2 + jitter)
with jitter = rand attempt / 2 is slept (recorded in the returned list);
rand models Math.random per sleep. On exhaustion the last error is thrown
(none when no attempt ever ran, mirroring throw undefined). -/
def retryGo {ε α : Type} (op : Nat → Except ε α) (rand : Nat → ℚ)
    (maxRetries : Nat) (delay : ℚ) :
    Nat → Nat → Option ε → Except (Option ε) α × List ℚ
  | _, 0, lastError => (.error lastError, [])
  | attempt, remaining + 1, _ =>
    match op attempt with
    | .ok v => (.ok v, [])
    | .error e =>
      let rest := retryGo op rand maxRetries delay (attempt + 1) remaining (some e)
      if attempt < maxRetries - 1 then
        (rest.1, (delay * 2 ^ attempt * (1/2 + rand attempt * (1/2))) :: rest.2)
      else
        rest

/-- retry of the source: up to maxRetries sequential attempts, exponential
backoff with jitter between failed attempts, last error thrown on
exhaustion. Returns the outcome together with the list of slept delays. -/
def retry {ε α : Type} (op : Nat → Except ε α) (rand : Nat → ℚ)
    (maxRetries : Nat) (delay : ℚ) : Except (Option ε) α × List ℚ :=
  retryGo op rand maxRetries delay 0 maxRetries none

/-- Embeds elements.length === 1 ? elements[0] : elements. -/
def collapse : List String → ExtractedValue
  | [x] => .scalar x
  | xs => .seq xs

/-- One field's settled promise: retry the extraction operation (the jitter
source is irrelevant to the returned value, only to sleep durations, so a
fixed one is passed); on success collapse the deduplicated values, on
failure of the retry the catch of the source returns the empty string for
the field. The promise itself always fulfills, hence the ok. -/
def fieldPromise (page : Page) (opts : MergedOptions)
    (kv : String × Selector) : Except ScrapeErr (String × ExtractedValue) :=
  match (retry (fun _ => (Except.ok (extractOperation page kv.2) :
      Except String (List String))) (fun _ => 0) opts.retryCount 1000).1 with
  | .ok elements => .ok (kv.1, collapse elements)
  | .error _ => .ok (kv.1, .scalar "")

/-- The results.forEach of the source: walk the settled field promises in
field order; a rejected promise throws a fresh field error when
breakWhenFailed is set and is skipped otherwise; a fulfilled promise assigns
its key/value into the data map. -/
def aggregateResults (breakWhenFailed : Bool) :
    List ((String × Selector) × Except ScrapeErr (String × ExtractedValue)) →
    Except ScrapeErr (List (String × ExtractedValue))
  | [] => .ok []
  | (entry, .error _) :: rest =>
    if breakWhenFailed then .error (.fieldFailed entry.1)
    else aggregateResults breakWhenFailed rest
  | (_, .ok kv) :: rest =>
    match aggregateResults breakWhenFailed rest with
    | .ok tail => .ok (kv :: tail)
    | .error e => .error e

/-- The data map a page produces when every field promise fulfills: each
configured field, in configured order, mapped to its collapsed value. -/
def pageData (page : Page) (opts : MergedOptions) :
    List (String × ExtractedValue) :=
  opts.selectors.map fun kv => (kv.1, collapse (extractOperation page kv.2))

/-- The child-link filter of the source: syntactically valid, not yet
visited, and accepted by options.excludeChildPage ? excludeChildPage(link)
: isSameDomain(url, link). -/
def validLinksOf (env : Web) (opts : MergedOptions) (url : String)
    (visited : List String) (links : List String) : List String :=
  links.filter fun link =>
    isValidUrl env link && !(visited.contains link) &&
    (match opts.excludeChildPage with
     | some ex => ex link
     | none => isSameDomain env url link)

/-- The raw anchor hrefs kept by the source: truthy and starting with http,
then deduplicated. -/
def uniqueLinksOf (page : Page) : List String :=
  jsSetDedup (page.links.filter fun l => l ≠ "" && l.startsWith "http")

mutual

/-- scrapeWebPage of the source. A url already in the visited set returns
the degenerate Already visited result at once; otherwise the url is added
to the visited set, the page is navigated (none = goto rejects, propagated
as an error after the visited-set insertion), the title read, every field
promise settled and aggregated, the anchors collected, and, when
currentDepth < maxDepth, the accepted child links are scraped sequentially;
childPages is attached only when at least one child result was produced.
The updated visited list is returned alongside, mirroring the mutation of
the shared Set. -/
def scrapeWebPage (env : Web) (opts : MergedOptions) (url : String)
    (currentDepth : Nat) (visitedUrls : List String) :
    Except ScrapeErr ScrapingResult × List String :=
  if url ∈ visitedUrls then
    (.ok (.mk url "Already visited" [] env.now none), visitedUrls)
  else
    match env.pages url with
    | none => (.error (.nav url), visitedUrls ++ [url])
    | some page =>
      match aggregateResults opts.breakWhenFailed
          (opts.selectors.map fun kv => (kv, fieldPromise page opts kv)) with
      | .error e => (.error e, visitedUrls ++ [url])
      | .ok data =>
        if h : currentDepth < opts.maxDepth then
          match scrapeChildren env opts (currentDepth + 1)
              (validLinksOf env opts url (visitedUrls ++ [url])
                (uniqueLinksOf page))
              (visitedUrls ++ [url]) with
          | (.error e, visited2) => (.error e, visited2)
          | (.ok childPages, visited2) =>
            (.ok (.mk url page.title data env.now
              (if childPages.length > 0 then some childPages else none)),
             visited2)
        else
          (.ok (.mk url page.title data env.now none), visitedUrls ++ [url])
termination_by (opts.maxDepth + 1 - currentDepth, 0, 0)
decreasing_by
  exact Prod.Lex.left _ _ (by omega)

/-- The sequential child loop of the source: each accepted link is scraped at
depth currentDepth + 1 with the same visited set; a successful child result
is pushed, a failed one propagates when breakWhenFailed is set and is
skipped otherwise (the visited-set mutations of the failed branch persist). -/
def scrapeChildren (env : Web) (opts : MergedOptions) (depth : Nat)
    (links : List String) (visitedUrls : List String) :
    Except ScrapeErr (List ScrapingResult) × List String :=
  match links with
  | [] => (.ok [], visitedUrls)
  | link :: rest =>
    match scrapeWebPage env opts link depth visitedUrls with
    | (.ok childResult, visited1) =>
      match scrapeChildren env opts depth rest visited1 with
      | (.ok tail, visited2) => (.ok (childResult :: tail), visited2)
      | (.error e, visited2) => (.error e, visited2)
    | (.error e, visited1) =>
      if opts.breakWhenFailed then (.error e, visited1)
      else scrapeChildren env opts depth rest visited1
termination_by (opts.maxDepth + 1 - depth, 1, links.length)
decreasing_by
  all_goals first
    | exact Prod.Lex.right _ (Prod.Lex.left _ _ (by omega))
    | exact Prod.Lex.right _ (Prod.Lex.right _ (by simp))

end

/-- scraping, the exported entry point: merge the user options over the
defaults, fail fast with a configuration error when the merged maxDepth
exceeds MAX_DEEPEST_DEPTH, and otherwise run scrapeWebPage at depth 0 with a
fresh empty visited set, propagating its outcome unchanged. -/
def scraping (env : Web) (url : String) (userOpts : ScrapingOptions) :
    Except ScrapeErr ScrapingResult :=
  let options := mergeOptions DefaultScrapingOptions userOpts
  if options.maxDepth > MAX_DEEPEST_DEPTH then .error .maxDepthExceeded
  else (scrapeWebPage env options url 0 []).1

/-! Helper lemmas shared by the claim theorems. -/

/-- A retry of an operation that succeeds immediately returns that success
as long as at least one attempt is allowed. -/
theorem retry_ok_of_pos {ε α : Type} (v : α) (rand : Nat → ℚ)
    (maxRetries : Nat) (delay : ℚ) (h : 1 ≤ maxRetries) :
    (retry (fun _ => (Except.ok v : Except ε α)) rand maxRetries delay) =
      (.ok v, []) := by
  obtain ⟨m, rfl⟩ : ∃ m, maxRetries = m + 1 := ⟨maxRetries - 1, by omega⟩
  simp [retry, retryGo]

/-- When at least one attempt is allowed, a field promise always fulfills
with the collapsed deduplicated extraction of the field. -/
theorem fieldPromise_eq (page : Page) (opts : MergedOptions)
    (kv : String × Selector) (h : 1 ≤ opts.retryCount) :
    fieldPromise page opts kv =
      .ok (kv.1, collapse (extractOperation page kv.2)) := by
  simp [fieldPromise, retry_ok_of_pos _ _ _ _ h]

/-- Aggregating a list of fulfilled field promises assigns every field in
order, whatever the breakWhenFailed flag. -/
theorem aggregateResults_all_ok (b : Bool)
    (entrys : List (String × Selector))
    (f : String × Selector → String × ExtractedValue) :
    aggregateResults b (entrys.map fun kv => (kv, .ok (f kv))) =
      .ok (entrys.map f) := by
  induction entrys with
  | nil => simp [aggregateResults]
  | cons kv rest ih => simp [aggregateResults, ih]

/-- With at least one retry allowed, the data aggregation of a page never
fails and produces exactly pageData. -/
theorem aggregate_pageData (page : Page) (opts : MergedOptions)
    (h : 1 ≤ opts.retryCount) :
    aggregateResults opts.breakWhenFailed
        (opts.selectors.map fun kv => (kv, fieldPromise page opts kv)) =
      .ok (pageData page opts) := by
  have hmap : (opts.selectors.map fun kv => (kv, fieldPromise page opts kv)) =
      opts.selectors.map fun kv =>
        (kv, .ok (kv.1, collapse (extractOperation page kv.2))) := by
    apply List.map_congr_left
    intro kv _
    rw [fieldPromise_eq page opts kv h]
  rw [hmap]
  exact aggregateResults_all_ok _ _ _

/-- The JS Set construction produces a duplicate-free list. -/
theorem jsSetDedup_nodup {α : Type} [DecidableEq α] (xs : List α) :
    (jsSetDedup xs).Nodup := by
  suffices h : ∀ acc : List α, acc.Nodup →
      (xs.foldl (fun acc x => if x ∈ acc then acc else acc ++ [x]) acc).Nodup by
    exact h [] List.nodup_nil
  induction xs with
  | nil => intro acc hacc; simpa using hacc
  | cons x rest ih =>
    intro acc hacc
    by_cases hx : x ∈ acc
    · simpa [List.foldl_cons, hx] using ih acc hacc
    · have : (acc ++ [x]).Nodup := by
        simp [List.nodup_append, hacc, List.disjoint_singleton, hx]
      simpa [List.foldl_cons, hx] using ih (acc ++ [x]) this

/-- When the effective exclusion predicate is the default constant-false one,
the child-link filter keeps nothing. -/
theorem validLinksOf_default_empty (env : Web) (opts : MergedOptions)
    (url : String) (visited links : List String)
    (h : opts.excludeChildPage = some fun _ => false) :
    validLinksOf env opts url visited links = [] := by
  simp [validLinksOf, h]

/-- A field all of whose selectors fail contributes no values at all. -/
theorem extractOperation_all_failed (page : Page) (sel : Selector)
    (h : ∀ s ∈ sel.toList, ∃ err, page.queryResult s = .error err) :
    extractOperation page sel = [] := by
  have hflat : ∀ l : List String,
      (∀ s ∈ l, ∃ err, page.queryResult s = .error err) →
      ((l.map (processSelector page)).map fun r =>
        match r with
        | .ok v => v
        | .error _ => ([] : List String)).flatten = [] := by
    intro l hl
    induction l with
    | nil => simp
    | cons s rest ih =>
      obtain ⟨err, herr⟩ := hl s (by simp)
      have htail := ih fun t ht => hl t (by simp [ht])
      simp only [List.map_cons, List.flatten_cons, processSelector, herr,
        Except.map, List.nil_append]
      exact htail
  simp only [extractOperation]
  rw [hflat sel.toList h]
  simp [jsSetDedup]

/-! Claim theorems. -/

/-- C6: an operation failing on attempts 0 and 1 and succeeding on attempt 2,
retried with maxAttempts 3, returns the success value and sleeps exactly
twice, the sleep after failed attempt i lasting delay * 2 ^ i * (0.5 + u/2)
for the attempt's jitter u in [0,1), hence between delay * 2 ^ i / 2 and
delay * 2 ^ i; and an operation failing on every attempt makes retry fail
with the last observed error. -/
theorem retry_backoff_C6 {ε α : Type} (op op2 : Nat → Except ε α)
    (g : Nat → ε) (rand : Nat → ℚ) (v : α) (e0 e1 : ε) (delay : ℚ)
    (hrand : ∀ i, 0 ≤ rand i ∧ rand i < 1) (hdelay : 0 < delay)
    (h0 : op 0 = .error e0) (h1 : op 1 = .error e1) (h2 : op 2 = .ok v)
    (hfail : ∀ i, op2 i = .error (g i)) :
    (∃ d0 d1, retry op rand 3 delay = (.ok v, [d0, d1]) ∧
      delay * 2 ^ 0 * (1/2) ≤ d0 ∧ d0 ≤ delay * 2 ^ 0 ∧
      delay * 2 ^ 1 * (1/2) ≤ d1 ∧ d1 ≤ delay * 2 ^ 1) ∧
    (retry op2 rand 3 delay).1 = .error (some (g 2)) := by
  constructor
  · refine ⟨delay * 2 ^ 0 * (1/2 + rand 0 * (1/2)),
      delay * 2 ^ 1 * (1/2 + rand 1 * (1/2)), ?_, ?_, ?_, ?_, ?_⟩
    · simp [retry, retryGo, h0, h1, h2]
    · obtain ⟨hr, _⟩ := hrand 0
      nlinarith
    · obtain ⟨_, hr⟩ := hrand 0
      nlinarith
    · obtain ⟨hr, _⟩ := hrand 1
      nlinarith
    · obtain ⟨_, hr⟩ := hrand 1
      nlinarith
  · simp [retry, retryGo, hfail 0, hfail 1, hfail 2]

def opC6 : Nat → Except Nat Nat := fun i =>
  if i < 2 then .error (10 + i) else .ok 42

def opC6fail : Nat → Except Nat Nat := fun i => .error i

def randC6 : Nat → ℚ := fun _ => 1/2

/-- Witness for C6 at a concrete operation, jitter source and base delay. -/
theorem retry_backoff_C6_witness :
    (∃ d0 d1, retry opC6 randC6 3 1000 = (.ok 42, [d0, d1]) ∧
      1000 * 2 ^ 0 * (1/2) ≤ d0 ∧ d0 ≤ 1000 * 2 ^ 0 ∧
      1000 * 2 ^ 1 * (1/2) ≤ d1 ∧ d1 ≤ 1000 * 2 ^ 1) ∧
    (retry opC6fail randC6 3 1000).1 = .error (some 2) :=
  retry_backoff_C6 opC6 opC6fail (fun i => i) randC6 42 10 11 1000
    (fun i => by constructor <;> norm_num [randC6]) (by norm_num)
    rfl rfl rfl (fun i => rfl)

/-- C7: after merging and deduplicating the surviving values of a field, the
remaining values are distinct; the field promise fulfills with their
collapse; exactly one remaining value collapses to a bare scalar, and zero or
two-or-more remaining values collapse to the ordered sequence itself. -/
theorem arity_collapse_C7 (page : Page) (opts : MergedOptions)
    (kv : String × Selector) (h : 1 ≤ opts.retryCount) :
    (extractOperation page kv.2).Nodup ∧
    fieldPromise page opts kv =
      .ok (kv.1, collapse (extractOperation page kv.2)) ∧
    (∀ x, extractOperation page kv.2 = [x] →
      collapse (extractOperation page kv.2) = .scalar x) ∧
    ((extractOperation page kv.2).length ≠ 1 →
      collapse (extractOperation page kv.2) = .seq (extractOperation page kv.2)) := by
  refine ⟨?_, fieldPromise_eq page opts kv h, ?_, ?_⟩
  · simp only [extractOperation]
    exact jsSetDedup_nodup _
  · intro x hx
    rw [hx]
    rfl
  · intro hlen
    rcases hx : extractOperation page kv.2 with _ | ⟨x, _ | ⟨y, t⟩⟩
    · rfl
    · rw [hx] at hlen
      simp at hlen
    · rfl

def elemC7a : Element := { id := 0, ancestors := [], text := "alpha" }

def elemC7b : Element := { id := 1, ancestors := [], text := "beta" }

def pageC7 : Page where
  title := "C7"
  queryResult := fun s =>
    if s = "h1" then .ok [elemC7a, elemC7b]
    else if s = "h2" then .ok [elemC7a]
    else .error "timeout"
  links := []

def optsC7 : MergedOptions := DefaultScrapingOptions

/-- Witness for C7: a selector with two distinct surviving values yields the
two-element sequence, and a selector with one surviving value would collapse
to a scalar. -/
theorem arity_collapse_C7_witness :
    (1:Nat) ≤ optsC7.retryCount ∧
    fieldPromise pageC7 optsC7 ("f", .single "h1") =
      .ok ("f", collapse (extractOperation pageC7 (Selector.single "h1"))) ∧
    extractOperation pageC7 (Selector.single "h1") = ["alpha", "beta"] ∧
    collapse (extractOperation pageC7 (Selector.single "h1")) =
      .seq ["alpha", "beta"] ∧
    collapse (extractOperation pageC7 (Selector.single "h2")) = .scalar "alpha" := by
  have h := arity_collapse_C7 pageC7 optsC7 ("f", .single "h1") (by decide)
  have hval : extractOperation pageC7 (Selector.single "h1") = ["alpha", "beta"] := by
    decide
  refine ⟨by decide, h.2.1, hval, ?_, ?_⟩
  · rw [hval]
    exact h.2.2.2 (by rw [hval]; decide)
  · have hone : extractOperation pageC7 (Selector.single "h2") = ["alpha"] := by
      decide
    have h2 := arity_collapse_C7 pageC7 optsC7 ("g", .single "h2") (by decide)
    exact h2.2.2.1 "alpha" hone

/-- C2: the child-link inclusion rule of the recursion filter: when an
exclusion predicate is present in the options it is applied directly as the
inclusion test (truthy means include); when no predicate is present the
filter falls back to keeping only links whose hostname equals the parent
page's hostname; in both cases only syntactically valid, not yet visited
links are considered. -/
theorem childlink_filter_C2 (env : Web) (opts : MergedOptions) (url : String)
    (visited links : List String) :
    (∀ p, opts.excludeChildPage = some p →
      validLinksOf env opts url visited links =
        links.filter fun link =>
          isValidUrl env link && !(visited.contains link) && p link) ∧
    (opts.excludeChildPage = none →
      validLinksOf env opts url visited links =
        links.filter fun link =>
          isValidUrl env link && !(visited.contains link) &&
            isSameDomain env url link) := by
  constructor
  · intro p hp
    simp [validLinksOf, hp]
  · intro hp
    simp [validLinksOf, hp]

def envC2 : Web where
  pages := fun _ => none
  hostname := fun u =>
    if u = "bad" then none
    else if u = "http://e/y" then some "e" else some "h"
  now := "T"

def predC2 : String → Bool := fun l => l == "http://h/x"

def optsC2p : MergedOptions :=
  { DefaultScrapingOptions with excludeChildPage := some predC2 }

def optsC2n : MergedOptions :=
  { DefaultScrapingOptions with excludeChildPage := none }

/-- Witness for C2: with a supplied predicate only the link the predicate
accepts survives; with no predicate only the same-hostname link survives. -/
theorem childlink_filter_C2_witness :
    validLinksOf envC2 optsC2p "http://h/" [] ["http://h/x", "http://e/y", "bad"]
      = ["http://h/x"] ∧
    validLinksOf envC2 optsC2n "http://h/" [] ["http://h/x", "http://e/y", "bad"]
      = ["http://h/x"] := by
  have hp := (childlink_filter_C2 envC2 optsC2p "http://h/" []
    ["http://h/x", "http://e/y", "bad"]).1 predC2 rfl
  have hn := (childlink_filter_C2 envC2 optsC2n "http://h/" []
    ["http://h/x", "http://e/y", "bad"]).2 rfl
  constructor
  · rw [hp]
    simp [isValidUrl, envC2, predC2]
  · rw [hn]
    simp [isValidUrl, isSameDomain, envC2]

/-- C9: calling the entry point with a merged maxDepth above the absolute
ceiling fails at once with the configuration error, for every environment,
hence before any browser launch or navigation. -/
theorem depth_ceiling_C9 (env : Web) (url : String)
    (userOpts : ScrapingOptions) (d : Nat)
    (h1 : userOpts.maxDepth = some d) (h2 : MAX_DEEPEST_DEPTH < d) :
    scraping env url userOpts = .error .maxDepthExceeded := by
  have hm : (mergeOptions DefaultScrapingOptions userOpts).maxDepth = d := by
    simp [mergeOptions, h1]
  simp [scraping, hm, h2]

def envC9 : Web where
  pages := fun _ => none
  hostname := fun _ => none
  now := "T"

/-- Witness for C9 at maxDepth 11. -/
theorem depth_ceiling_C9_witness :
    scraping envC9 "http://a/" { maxDepth := some 11 } =
      .error .maxDepthExceeded :=
  depth_ceiling_C9 envC9 "http://a/" { maxDepth := some 11 } 11 rfl (by decide)

def elemC4outer : Element := { id := 0, ancestors := [], text := "outer inner" }

def elemC4inner : Element := { id := 1, ancestors := [0], text := "inner" }

def pageC4 : Page where
  title := "C4"
  queryResult := fun s =>
    if s = "s1" then .ok [elemC4outer]
    else if s = "s2" then .ok [elemC4inner]
    else if s = "s12" then .ok [elemC4outer, elemC4inner]
    else .error "timeout"
  links := []

def optsC4 : MergedOptions := DefaultScrapingOptions

/-- Counterexample for C4: element A contains element B and both lie in the
union of the field's selector matches (A matched by s1, B by s2), yet the
extracted sequence has two entries and B's own text survives: the hierarchy
dedup of the code runs per selector, not over the union. -/
theorem hierarchy_dedup_C4_counterexample :
    extractOperation pageC4 (Selector.multi ["s1", "s2"]) =
      ["outer inner", "inner"] ∧
    fieldPromise pageC4 optsC4 ("f", .multi ["s1", "s2"]) =
      .ok ("f", .seq ["outer inner", "inner"]) ∧
    elemC4outer.id ∈ elemC4inner.ancestors := by
  refine ⟨by decide, ?_, by decide⟩
  rw [fieldPromise_eq pageC4 optsC4 ("f", .multi ["s1", "s2"]) (by decide)]
  rfl

/-- C4 amended: the hierarchy dedup applies within each single selector's
match set. If elements A and B are both matched by the same selector of the
field and A is an ancestor of B, then B is suppressed: when that selector
matches exactly A then B, the selector contributes A's full trimmed text
alone, and a field consisting of that selector alone extracts the single
entry A.text, collapsed to the bare scalar A.text. Elements matched only by
different selectors of the same field are not filtered against each other. -/
theorem hierarchy_dedup_C4_amended (page : Page) (opts : MergedOptions)
    (key s : String) (A B : Element)
    (hq : page.queryResult s = .ok [A, B])
    (hAB : A.id ∈ B.ancestors)
    (hA : ∀ a ∈ A.ancestors, A.id ≠ a ∧ B.id ≠ a)
    (htext : A.text ≠ "")
    (hretry : 1 ≤ opts.retryCount) :
    hierarchyFilter [A, B] = [A] ∧
    extractOperation page (.single s) = [A.text] ∧
    fieldPromise page opts (key, .single s) = .ok (key, .scalar A.text) := by
  have hAkeep : (A.ancestors.any fun a => [A, B].any fun e => e.id == a) = false := by
    rw [List.any_eq_false]
    intro a ha
    obtain ⟨h1, h2⟩ := hA a ha
    simp [List.any_cons, beq_iff_eq, h1, h2]
  have hBdrop : (B.ancestors.any fun a => [A, B].any fun e => e.id == a) = true := by
    rw [List.any_eq_true]
    exact ⟨A.id, hAB, by simp⟩
  have hfilter : hierarchyFilter [A, B] = [A] := by
    unfold hierarchyFilter
    simp only [List.filter_cons, List.filter_nil, hAkeep, hBdrop,
      Bool.not_false, Bool.not_true]
    simp
  have hext : extractOperation page (.single s) = [A.text] := by
    simp [extractOperation, Selector.toList, processSelector, hq, Except.map,
      hfilter, htext, jsSetDedup]
  refine ⟨hfilter, hext, ?_⟩
  rw [fieldPromise_eq page opts (key, .single s) hretry, hext]
  rfl

def pageC4w : Page where
  title := "C4w"
  queryResult := fun s =>
    if s = "s12" then .ok [elemC4outer, elemC4inner] else .error "timeout"
  links := []

/-- Witness for the amended C4: one selector matching a container and its
contained descendant yields only the container's full text, as a scalar. -/
theorem hierarchy_dedup_C4_amended_witness :
    hierarchyFilter [elemC4outer, elemC4inner] = [elemC4outer] ∧
    extractOperation pageC4w (.single "s12") = ["outer inner"] ∧
    fieldPromise pageC4w optsC4 ("f", .single "s12") =
      .ok ("f", .scalar "outer inner") :=
  hierarchy_dedup_C4_amended pageC4w optsC4 "f" "s12" elemC4outer elemC4inner
    rfl (by decide) (by decide) (by decide) (by decide)

/-- The visited set only ever grows: whatever a page scrape or a child loop
does, the visited list it returns extends the one it was given. -/
theorem scrape_visited_extends (n : Nat) :
    ∀ (env : Web) (opts : MergedOptions) (d : Nat),
      opts.maxDepth + 1 - d ≤ n →
      ((∀ url visited,
          ∃ t, (scrapeWebPage env opts url d visited).2 = visited ++ t) ∧
       (∀ links visited,
          ∃ t, (scrapeChildren env opts d links visited).2 = visited ++ t)) := by
  induction n using Nat.strong_induction_on with
  | _ n ih =>
    intro env opts d hd
    have hpage : ∀ url visited,
        ∃ t, (scrapeWebPage env opts url d visited).2 = visited ++ t := by
      intro url visited
      by_cases hv : url ∈ visited
      · exact ⟨[], by rw [scrapeWebPage.eq_def]; simp [hv]⟩
      · cases hpg : env.pages url with
        | none => exact ⟨[url], by rw [scrapeWebPage.eq_def]; simp [hv, hpg]⟩
        | some page =>
          cases hagg : aggregateResults opts.breakWhenFailed
              (opts.selectors.map fun kv => (kv, fieldPromise page opts kv)) with
          | error e =>
            exact ⟨[url], by rw [scrapeWebPage.eq_def]; simp [hv, hpg, hagg]⟩
          | ok data =>
            by_cases hlt : d < opts.maxDepth
            · have hm : opts.maxDepth + 1 - (d + 1) < n := by omega
              have hch := (ih (opts.maxDepth + 1 - (d + 1)) hm env opts (d + 1)
                le_rfl).2
              obtain ⟨t, ht⟩ := hch
                (validLinksOf env opts url (visited ++ [url]) (uniqueLinksOf page))
                (visited ++ [url])
              rcases hsc : scrapeChildren env opts (d + 1)
                  (validLinksOf env opts url (visited ++ [url]) (uniqueLinksOf page))
                  (visited ++ [url]) with ⟨r, v2⟩
              rw [hsc] at ht
              refine ⟨[url] ++ t, ?_⟩
              cases r with
              | error e =>
                rw [scrapeWebPage.eq_def]; simp [hv, hpg, hagg, hlt, hsc, ht]
              | ok cp =>
                rw [scrapeWebPage.eq_def]; simp [hv, hpg, hagg, hlt, hsc, ht]
            · exact ⟨[url], by rw [scrapeWebPage.eq_def]; simp [hv, hpg, hagg, hlt]⟩
    have hchildren : ∀ links visited,
        ∃ t, (scrapeChildren env opts d links visited).2 = visited ++ t := by
      intro links
      induction links with
      | nil =>
        intro visited
        exact ⟨[], by rw [scrapeChildren.eq_def]; simp⟩
      | cons link rest ihl =>
        intro visited
        rcases hsp : scrapeWebPage env opts link d visited with ⟨r, v1⟩
        obtain ⟨t1, ht1⟩ := hpage link visited
        rw [hsp] at ht1
        simp only [Prod.snd] at ht1
        cases r with
        | ok c =>
          rcases hsc : scrapeChildren env opts d rest v1 with ⟨r2, v2⟩
          obtain ⟨t2, ht2⟩ := ihl v1
          rw [hsc] at ht2
          simp only [Prod.snd] at ht2
          subst ht2
          subst ht1
          refine ⟨t1 ++ t2, ?_⟩
          cases r2 with
          | ok tail =>
            rw [scrapeChildren.eq_def]
            simp [hsp, hsc, List.append_assoc]
          | error e =>
            rw [scrapeChildren.eq_def]
            simp [hsp, hsc, List.append_assoc]
        | error e =>
          subst ht1
          by_cases hb : opts.breakWhenFailed
          · exact ⟨t1, by rw [scrapeChildren.eq_def]; simp [hsp, hb]⟩
          · obtain ⟨t2, ht2⟩ := ihl (visited ++ t1)
            refine ⟨t1 ++ t2, ?_⟩
            rw [scrapeChildren.eq_def]
            simp [hsp, hb, ht2, List.append_assoc]
    exact ⟨hpage, hchildren⟩

/-- C10: a page scrape of a url already in the session's visited set returns
at once, as a normal result and not a failure, the degenerate Already
visited result with empty data and no childPages, the visited set untouched;
otherwise the url is appended to the visited set first, so the returned
visited list extends visited ++ [url] on every path, navigation failures
included. -/
theorem cycle_guard_C10 (env : Web) (opts : MergedOptions) (url : String)
    (depth : Nat) (visited : List String) :
    (url ∈ visited →
      scrapeWebPage env opts url depth visited =
        (.ok (.mk url "Already visited" [] env.now none), visited)) ∧
    (url ∉ visited →
      ∃ rest, (scrapeWebPage env opts url depth visited).2 =
        visited ++ [url] ++ rest) := by
  constructor
  · intro hv
    rw [scrapeWebPage.eq_def]; simp [hv]
  · intro hv
    cases hpg : env.pages url with
    | none => exact ⟨[], by rw [scrapeWebPage.eq_def]; simp [hv, hpg]⟩
    | some page =>
      cases hagg : aggregateResults opts.breakWhenFailed
          (opts.selectors.map fun kv => (kv, fieldPromise page opts kv)) with
      | error e => exact ⟨[], by rw [scrapeWebPage.eq_def]; simp [hv, hpg, hagg]⟩
      | ok data =>
        by_cases hlt : depth < opts.maxDepth
        · have hch := (scrape_visited_extends (opts.maxDepth + 1 - (depth + 1))
            env opts (depth + 1) le_rfl).2
          obtain ⟨t, ht⟩ := hch
            (validLinksOf env opts url (visited ++ [url]) (uniqueLinksOf page))
            (visited ++ [url])
          rcases hsc : scrapeChildren env opts (depth + 1)
              (validLinksOf env opts url (visited ++ [url]) (uniqueLinksOf page))
              (visited ++ [url]) with ⟨r, v2⟩
          rw [hsc] at ht
          refine ⟨t, ?_⟩
          cases r with
          | error e => rw [scrapeWebPage.eq_def]; simp [hv, hpg, hagg, hlt, hsc, ht]
          | ok cp => rw [scrapeWebPage.eq_def]; simp [hv, hpg, hagg, hlt, hsc, ht]
        · exact ⟨[], by rw [scrapeWebPage.eq_def]; simp [hv, hpg, hagg, hlt]⟩

def pageC10 : Page where
  title := "C10"
  queryResult := fun _ => .error "timeout"
  links := []

def envC10 : Web where
  pages := fun u => if u = "http://c/" then some pageC10 else none
  hostname := fun _ => some "c"
  now := "T"

/-- C8: at depth equal to maxDepth no child link is followed: the page (when
it navigates, with at least one retry allowed and a fresh url) returns with
childPages absent and the visited set extended by this url alone. And no
returned ok result ever carries an empty childPages sequence: the key is
omitted instead. -/
theorem no_recursion_C8 (env : Web) (opts : MergedOptions) (url : String)
    (visited : List String) :
    (∀ page, 1 ≤ opts.retryCount → url ∉ visited →
      env.pages url = some page →
      scrapeWebPage env opts url opts.maxDepth visited =
        (.ok (.mk url page.title (pageData page opts) env.now none),
         visited ++ [url])) ∧
    (∀ d r v, scrapeWebPage env opts url d visited = (.ok r, v) →
      r.childPages ≠ some []) := by
  constructor
  · intro page hretry hv hpg
    rw [scrapeWebPage.eq_def]
    simp [hv, hpg, aggregate_pageData page opts hretry, Nat.lt_irrefl]
  · intro d r v h
    by_cases hv : url ∈ visited
    · rw [scrapeWebPage.eq_def] at h
      simp [hv] at h
      obtain ⟨h1, h2⟩ := h
      subst h1
      simp [ScrapingResult.childPages]
    · cases hpg : env.pages url with
      | none =>
        rw [scrapeWebPage.eq_def] at h
        simp [hv, hpg] at h
      | some page =>
        cases hagg : aggregateResults opts.breakWhenFailed
            (opts.selectors.map fun kv => (kv, fieldPromise page opts kv)) with
        | error e =>
          rw [scrapeWebPage.eq_def] at h
          simp [hv, hpg, hagg] at h
        | ok data =>
          by_cases hlt : d < opts.maxDepth
          · rcases hsc : scrapeChildren env opts (d + 1)
                (validLinksOf env opts url (visited ++ [url]) (uniqueLinksOf page))
                (visited ++ [url]) with ⟨rc, v2⟩
            cases rc with
            | error e =>
              rw [scrapeWebPage.eq_def] at h
              simp [hv, hpg, hagg, hlt, hsc] at h
            | ok cp =>
              rw [scrapeWebPage.eq_def] at h
              simp [hv, hpg, hagg, hlt, hsc] at h
              obtain ⟨h1, h2⟩ := h
              subst h1
              simp only [ScrapingResult.childPages]
              split
              · intro hh
                obtain rfl : cp = [] := Option.some.inj hh
                simp_all
              · simp
          · rw [scrapeWebPage.eq_def] at h
            simp [hv, hpg, hagg, hlt] at h
            obtain ⟨h1, h2⟩ := h
            subst h1
            simp [ScrapingResult.childPages]

/-- C3: with the default configuration in effect (the caller supplies no
excludeChildPage, so the merged options carry the default constant-false
predicate), no child page is ever scraped for any seed url and any maxDepth
up to the ceiling: the same-hostname fallback is unreachable, the child-link
filter keeps nothing, the session's visited set never grows past the seed
url, and the returned result has no childPages key. -/
theorem default_no_children_C3 (env : Web) (url : String)
    (userOpts : ScrapingOptions) (d : Nat)
    (hex : userOpts.excludeChildPage = none)
    (hmd : userOpts.maxDepth = some d) (hd : d ≤ 10) :
    (∀ r, scraping env url userOpts = .ok r → r.childPages = none) ∧
    (scrapeWebPage env (mergeOptions DefaultScrapingOptions userOpts)
      url 0 []).2 = [url] := by
  set opts := mergeOptions DefaultScrapingOptions userOpts with hopts
  have hpred : opts.excludeChildPage = some fun _ => false := by
    simp [hopts, mergeOptions, hex, DefaultScrapingOptions, Option.orElse]
  have hmd2 : opts.maxDepth = d := by
    simp [hopts, mergeOptions, hmd]
  have hnd : ¬ opts.maxDepth > MAX_DEEPEST_DEPTH := by
    rw [hmd2]
    simp [MAX_DEEPEST_DEPTH]
    omega
  have hentry : scraping env url userOpts = (scrapeWebPage env opts url 0 []).1 := by
    simp only [scraping]
    rw [← hopts, if_neg hnd]
  have hvnil : url ∉ ([] : List String) := by simp
  have hvv : ([] : List String) ++ [url] = [url] := by simp
  constructor
  · intro r hr
    rw [hentry] at hr
    cases hpg : env.pages url with
    | none =>
      rw [scrapeWebPage.eq_def] at hr
      simp [hvnil, hpg] at hr
    | some page =>
      cases hagg : aggregateResults opts.breakWhenFailed
          (opts.selectors.map fun kv => (kv, fieldPromise page opts kv)) with
      | error e =>
        rw [scrapeWebPage.eq_def] at hr
        simp [hvnil, hpg, hagg] at hr
      | ok data =>
        have hvl : validLinksOf env opts url [url] (uniqueLinksOf page) = [] :=
          validLinksOf_default_empty env opts url [url] (uniqueLinksOf page) hpred
        by_cases hlt : 0 < opts.maxDepth
        · have hch : scrapeChildren env opts 1 [] [url] = (.ok [], [url]) := by
            rw [scrapeChildren.eq_def]
          rw [scrapeWebPage.eq_def] at hr
          simp [hvnil, hpg, hagg, hlt, hvv, hvl, hch] at hr
          subst hr
          rfl
        · rw [scrapeWebPage.eq_def] at hr
          simp [hvnil, hpg, hagg, hlt] at hr
          subst hr
          rfl
  · cases hpg : env.pages url with
    | none =>
      rw [scrapeWebPage.eq_def]
      simp [hvnil, hpg]
    | some page =>
      cases hagg : aggregateResults opts.breakWhenFailed
          (opts.selectors.map fun kv => (kv, fieldPromise page opts kv)) with
      | error e =>
        rw [scrapeWebPage.eq_def]
        simp [hvnil, hpg, hagg]
      | ok data =>
        have hvl : validLinksOf env opts url [url] (uniqueLinksOf page) = [] :=
          validLinksOf_default_empty env opts url [url] (uniqueLinksOf page) hpred
        by_cases hlt : 0 < opts.maxDepth
        · have hch : scrapeChildren env opts 1 [] [url] = (.ok [], [url]) := by
            rw [scrapeChildren.eq_def]
          rw [scrapeWebPage.eq_def]
          simp [hvnil, hpg, hagg, hlt, hvv, hvl, hch]
        · rw [scrapeWebPage.eq_def]
          simp [hvnil, hpg, hagg, hlt]

def pageC1 : Page where
  title := "A"
  queryResult := fun _ => .error "timeout"
  links := []

def envC1 : Web where
  pages := fun u => if u = "http://a.com/" then some pageC1 else none
  hostname := fun _ => some "a.com"
  now := "T"

def uoptsC1 : ScrapingOptions where
  breakWhenFailed := some true
  selectors := some [("f", .single "h1")]

def moptsC1 : MergedOptions := mergeOptions DefaultScrapingOptions uoptsC1

/-- Counterexample for C1: with breakWhenFailed set and a field whose only
selector fails on every attempt, the entire scrape call still succeeds, the
failed field recorded as an empty sequence: the field failure is captured
inside the per-selector allSettled, so the retried operation fulfills and no
error ever reaches the breakWhenFailed escalation for fields. -/
theorem break_on_field_C1_counterexample :
    scraping envC1 "http://a.com/" uoptsC1 =
      .ok (.mk "http://a.com/" "A" [("f", .seq [])] "T" none) := by
  simp only [scraping, mergeOptions, uoptsC1, DefaultScrapingOptions,
    MAX_DEEPEST_DEPTH]
  norm_num
  rw [scrapeWebPage.eq_def]
  simp [envC1, pageC1, aggregateResults, fieldPromise, retry, retryGo,
    extractOperation, processSelector, collapse, jsSetDedup, Selector.toList,
    mergeOptions, uoptsC1, DefaultScrapingOptions]
  decide

/-- C1 amended: with breakWhenFailed set, a field that still fails after all
retries does not abort the page: every fallible step sits inside the
per-selector allSettled, so each field fulfills with its collapsed values, a
fully failed field yielding the empty sequence, and a page whose depth
permits no recursion returns successfully. breakWhenFailed escalates only
child-page errors, never field failures. -/
theorem break_on_field_C1_amended (env : Web) (opts : MergedOptions)
    (url : String) (depth : Nat) (visited : List String) (page : Page)
    (hretry : 1 ≤ opts.retryCount)
    (hbreak : opts.breakWhenFailed = true)
    (hv : url ∉ visited)
    (hpg : env.pages url = some page)
    (hdepth : opts.maxDepth ≤ depth) :
    scrapeWebPage env opts url depth visited =
      (.ok (.mk url page.title (pageData page opts) env.now none),
       visited ++ [url]) ∧
    (∀ sel : Selector,
      (∀ s ∈ sel.toList, ∃ err, page.queryResult s = .error err) →
      collapse (extractOperation page sel) = .seq []) := by
  constructor
  · rw [scrapeWebPage.eq_def]
    simp [hv, hpg, aggregate_pageData page opts hretry, Nat.not_lt.mpr hdepth]
  · intro sel hsel
    rw [extractOperation_all_failed page sel hsel]
    rfl

/-- Witness for the amended C1: a concrete page whose one field always fails,
scraped with breakWhenFailed set, still returns its result, the field empty. -/
theorem break_on_field_C1_amended_witness :
    scrapeWebPage envC1 moptsC1 "http://a.com/" 0 [] =
      (.ok (.mk "http://a.com/" "A" (pageData pageC1 moptsC1) "T" none),
       ["http://a.com/"]) ∧
    collapse (extractOperation pageC1 (.single "h1")) = .seq [] := by
  have h := break_on_field_C1_amended envC1 moptsC1 "http://a.com/" 0 []
    pageC1 (by decide) (by decide) (by simp) rfl (by decide)
  exact ⟨by simpa using h.1, h.2 (.single "h1") (fun s _ => ⟨"timeout", rfl⟩)⟩

def pageC5 : Page where
  title := "B"
  queryResult := fun s =>
    if s = "g" then .ok [{ id := 0, ancestors := [], text := "hello" }]
    else .error "timeout"
  links := []

def envC5 : Web where
  pages := fun u => if u = "http://b.com/" then some pageC5 else none
  hostname := fun _ => some "b.com"
  now := "T"

def uoptsC5 : ScrapingOptions where
  selectors := some [("g", .single "g"), ("f", .single "h1")]

def moptsC5 : MergedOptions := mergeOptions DefaultScrapingOptions uoptsC5

/-- Counterexample for C5: with breakWhenFailed left at its default, a field
whose selector never resolves does not prevent the page result or the other
fields, but it appears in the data map as an empty sequence, not as an empty
string. -/
theorem partial_failure_C5_counterexample :
    scraping envC5 "http://b.com/" uoptsC5 =
      .ok (.mk "http://b.com/" "B"
        [("g", .scalar "hello"), ("f", .seq [])] "T" none) ∧
    ExtractedValue.seq [] ≠ ExtractedValue.scalar "" := by
  constructor
  · simp only [scraping, mergeOptions, uoptsC5, DefaultScrapingOptions,
      MAX_DEEPEST_DEPTH]
    norm_num
    rw [scrapeWebPage.eq_def]
    simp [envC5, pageC5, aggregateResults, fieldPromise, retry, retryGo,
      extractOperation, processSelector, collapse, jsSetDedup, Selector.toList,
      mergeOptions, uoptsC5, DefaultScrapingOptions, hierarchyFilter]
    exact ⟨by decide, by decide⟩
  · decide

/-- C5 amended: with breakWhenFailed false, a field whose selectors all fail
after the retries does not prevent the page result or the other fields: the
page returns every configured field with its collapsed value, and the failed
field appears in the data map as an empty sequence (not an empty string). -/
theorem partial_failure_C5_amended (env : Web) (opts : MergedOptions)
    (url : String) (depth : Nat) (visited : List String) (page : Page)
    (hretry : 1 ≤ opts.retryCount)
    (hbreak : opts.breakWhenFailed = false)
    (hv : url ∉ visited)
    (hpg : env.pages url = some page)
    (hdepth : opts.maxDepth ≤ depth) :
    scrapeWebPage env opts url depth visited =
      (.ok (.mk url page.title (pageData page opts) env.now none),
       visited ++ [url]) ∧
    (∀ kv ∈ opts.selectors,
      (∀ s ∈ Selector.toList kv.2, ∃ err, page.queryResult s = .error err) →
      (kv.1, ExtractedValue.seq []) ∈ pageData page opts) := by
  constructor
  · rw [scrapeWebPage.eq_def]
    simp [hv, hpg, aggregate_pageData page opts hretry, Nat.not_lt.mpr hdepth]
  · intro kv hkv hfail
    have hc : collapse (extractOperation page kv.2) = .seq [] := by
      rw [extractOperation_all_failed page kv.2 hfail]
      rfl
    refine List.mem_map.mpr ⟨kv, hkv, ?_⟩
    rw [hc]

/-- Witness for the amended C5: a page with one succeeding and one failing
field returns both, the failing one as the empty sequence. -/
theorem partial_failure_C5_amended_witness :
    scrapeWebPage envC5 moptsC5 "http://b.com/" 0 [] =
      (.ok (.mk "http://b.com/" "B" (pageData pageC5 moptsC5) "T" none),
       ["http://b.com/"]) ∧
    ("f", ExtractedValue.seq []) ∈ pageData pageC5 moptsC5 := by
  have h := partial_failure_C5_amended envC5 moptsC5 "http://b.com/" 0 []
    pageC5 (by decide) (by decide) (by simp) rfl (by decide)
  refine ⟨by simpa using h.1, ?_⟩
  refine h.2 ("f", .single "h1") (by decide) ?_
  intro s hs
  simp only [Selector.toList, List.mem_singleton] at hs
  subst hs
  exact ⟨"timeout", rfl⟩

def pageC3 : Page where
  title := "C3"
  queryResult := fun _ => .ok [{ id := 0, ancestors := [], text := "hello" }]
  links := ["http://c3/x", "http://c3/y"]

def envC3 : Web where
  pages := fun u => if u = "http://c3/" then some pageC3 else none
  hostname := fun _ => some "c3"
  now := "T"

def uoptsC3 : ScrapingOptions where
  maxDepth := some 2

/-- Witness for C3: a seed page carrying same-hostname links, scraped with
maxDepth 2 and no user exclusion predicate, produces a result whose
childPages key is absent and visits only the seed. -/
theorem default_no_children_C3_witness :
    (∀ r, scraping envC3 "http://c3/" uoptsC3 = .ok r → r.childPages = none) ∧
    (scrapeWebPage envC3 (mergeOptions DefaultScrapingOptions uoptsC3)
      "http://c3/" 0 []).2 = ["http://c3/"] :=
  default_no_children_C3 envC3 "http://c3/" uoptsC3 2 rfl rfl (by decide)

def pageC8 : Page where
  title := "C8"
  queryResult := fun _ => .error "timeout"
  links := ["http://c8/x", "http://c8/y"]

def envC8 : Web where
  pages := fun u => if u = "http://c8/" then some pageC8 else none
  hostname := fun _ => some "c8"
  now := "T"

/-- Witness for C8: at depth 0 with maxDepth 0 the page returns childPages
absent even though it lists outgoing links, and the ok result never holds
some empty list. -/
theorem no_recursion_C8_witness :
    scrapeWebPage envC8 DefaultScrapingOptions "http://c8/" 0 [] =
      (.ok (.mk "http://c8/" "C8" (pageData pageC8 DefaultScrapingOptions)
        "T" none), ["http://c8/"]) ∧
    (ScrapingResult.mk "http://c8/" "C8"
      (pageData pageC8 DefaultScrapingOptions) "T" none).childPages ≠
        some [] := by
  have h := no_recursion_C8 envC8 DefaultScrapingOptions "http://c8/" []
  have h1 := h.1 pageC8 (by decide) (by simp) rfl
  exact ⟨h1, h.2 0 _ _ h1⟩

/-- Witness for C10: a revisited url yields the degenerate result untouched,
and a fresh url is recorded in the returned visited set. -/
theorem cycle_guard_C10_witness :
    scrapeWebPage envC10 DefaultScrapingOptions "http://c/" 0 ["http://c/"] =
      (.ok (.mk "http://c/" "Already visited" [] "T" none), ["http://c/"]) ∧
    (∃ rest, (scrapeWebPage envC10 DefaultScrapingOptions "http://c/" 0 []).2 =
      [] ++ ["http://c/"] ++ rest) := by
  constructor
  · exact (cycle_guard_C10 envC10 DefaultScrapingOptions "http://c/" 0
      ["http://c/"]).1 (by decide)
  · exact (cycle_guard_C10 envC10 DefaultScrapingOptions "http://c/" 0 []).2
      (by decide)
